import Mathlib

/-!
Shallow embedding of `src/svh/scope.hpp`: a hierarchical, type-keyed
settings registry (`svh::scope` / `type_settings<T>`).

Nodes live in an arena indexed by `Nat` (allocation order).  Each node
mirrors the state of one C++ `scope` object: the dynamic type tag of the
`type_settings<T>` object, the `parent` back pointer, the `children` map
from type keys to owned entries, and the consumer payload value (the data
a consumer specialization of `type_settings<T>` adds on top of the base;
the core only needs it to be default-constructible and copyable, so it is
a type parameter `V` with `[Inhabited V]`).

The recursions in the C++ code (`find`, `pop`) walk the parent chain;
in the embedding they take a fuel argument.  Well-formed arenas
(`parentLt`: parent pointers go strictly down in allocation order) make
the chain finite, and the supplied fuel is then never exhausted.
-/

set_option autoImplicit false

namespace svh

/-! ### Type identity resolution (`get_type_key`) -/

/-- C++ types as far as `get_type_key<T>` observes them: a registered
payload class type (numbered), possibly wrapped in const qualifiers and
lvalue/rvalue references. -/
inductive CppType where
  | payload : Nat → CppType
  | constQ : CppType → CppType
  | lref : CppType → CppType
  | rref : CppType → CppType
  deriving DecidableEq

/-- `std::remove_reference_t`. -/
def remove_reference : CppType → CppType
  | .lref t => t
  | .rref t => t
  | t => t

/-- Stripping the top-level const qualifiers. -/
def remove_const : CppType → CppType
  | .constQ t => remove_const t
  | t => t

/-- `std::decay_t` on non-array, non-function types: strip the reference,
then the cv qualifiers. -/
def decay (t : CppType) : CppType := remove_const (remove_reference t)

/-- `std::type_index` of a type: an injective numbering of types (typeid
separates distinct types; top-level cv never survives `decay`, and the
argument here is already decayed). -/
def typeIndexOf : CppType → Nat
  | .payload i => 4 * i
  | .constQ t => 4 * typeIndexOf t + 1
  | .lref t => 4 * typeIndexOf t + 2
  | .rref t => 4 * typeIndexOf t + 3

/-- `scope::get_type_key<T>`: `std::type_index{ typeid(std::decay_t<T>) }`. -/
def get_type_key (t : CppType) : Nat := typeIndexOf (decay t)

/-! ### Node storage -/

/-- Outcomes of the C++ operations that do not return normally.
`nullDeref` marks the places where the C++ performs a member call through
a null `parent` pointer (undefined behavior).  `outOfFuel` is an artifact
of the embedding; under `parentLt` it is never produced. -/
inductive Err where
  | typeMismatch
  | noParent
  | notFound
  | nullDeref
  | outOfFuel
  deriving DecidableEq

/-- One C++ `scope` object.  `tag` is the dynamic type (the `T` of the
`type_settings<T>` object; checked by the `dynamic_cast`s), `parent` and
`children` are the members of the `scope` base, `value` is the consumer
payload carried by a specialization of `type_settings<T>`. -/
structure Node (V : Type) where
  tag : Nat
  parent : Option Nat
  children : List (Nat × Nat)
  value : V

/-- The arena: every node created so far (ids below `next`), plus the
allocation counter. -/
structure State (V : Type) where
  nodes : Nat → Node V
  next : Nat

variable {V : Type}

/-- `children.find(key)` on the association list. -/
def lookupKey : List (Nat × Nat) → Nat → Option Nat
  | [], _ => none
  | p :: rest, key => if p.1 = key then some p.2 else lookupKey rest key

/-- `children.emplace(key, child)`: inserts only when the key is absent. -/
def emplaceChild (l : List (Nat × Nat)) (key : Nat) (c : Nat) :
    List (Nat × Nat) :=
  if (lookupKey l key).isSome then l else (key, c) :: l

/-- Overwrite one node of the arena. -/
def updNode (s : State V) (n : Nat) (nd : Node V) : State V :=
  { s with nodes := fun m => if m = n then nd else s.nodes m }

/-- A caller mutating the payload of an entry through the returned
reference. -/
def setValue (s : State V) (n : Nat) (v : V) : State V :=
  updNode s n { s.nodes n with value := v }

/-! ### The operations of `svh::scope` -/

/-- `scope::emplace_new<T>`: make a default-constructed `type_settings<T>`,
set its parent to this node, and emplace it into the children map. -/
def emplace_new [Inhabited V] (s : State V) (self : Nat) (key : Nat) :
    State V × Nat :=
  let nid := s.next
  let s1 := updNode s self
    { s.nodes self with children := emplaceChild (s.nodes self).children key nid }
  let s2 := updNode s1 nid { tag := key, parent := some self, children := [], value := default }
  ({ s2 with next := nid + 1 }, nid)

/-- `scope::find<T>`, one parent-chain step per fuel unit: look in this
node's children; on a hit the `dynamic_cast` checks the entry's dynamic
type; on a miss recurse to the parent; at the root return null. -/
def findFuel (s : State V) (key : Nat) : Nat → Nat → Except Err (Option Nat)
  | 0, _ => .error .outOfFuel
  | fuel + 1, self =>
    match lookupKey (s.nodes self).children key with
    | some c => if (s.nodes c).tag = key then .ok (some c) else .error .typeMismatch
    | none =>
      match (s.nodes self).parent with
      | some p => findFuel s key fuel p
      | none => .ok none

/-- `scope::find<T>`.  It is a const method: it inspects the tree and
returns a pointer without mutating anything, so the embedding returns no
state. -/
def find (s : State V) (self : Nat) (key : Nat) : Except Err (Option Nat) :=
  findFuel s key (self + 1) self

/-- `scope::pop(count)`, one parent-chain step per fuel unit, mirroring
the C++ literally: at a node with no parent it throws `noParent` only
when `count == 1`; for any other count it calls `pop` through the null
parent pointer (`nullDeref`). -/
def popFuel (s : State V) : Nat → Nat → Int → Except Err Nat
  | 0, _, _ => .error .outOfFuel
  | fuel + 1, self, count =>
    match (s.nodes self).parent with
    | none => if count = 1 then .error .noParent else .error .nullDeref
    | some p => if count = 1 then .ok p else popFuel s fuel p (count - 1)

/-- `scope::pop(count)`. -/
def pop (s : State V) (self : Nat) (count : Int) : Except Err Nat :=
  popFuel s (self + 1) self count

/-- `scope::_push<T>`: reuse an existing entry at this node; else, if this
node has a parent, copy the nearest entry found on the ancestor chain
(the copy keeps the payload value; then its parent is set to this node
and its children map is cleared before it is emplaced); else create a
fresh default entry. -/
def push [Inhabited V] (s : State V) (self : Nat) (key : Nat) :
    Except Err (State V × Nat) :=
  match lookupKey (s.nodes self).children key with
  | some c => if (s.nodes c).tag = key then .ok (s, c) else .error .typeMismatch
  | none =>
    match (s.nodes self).parent with
    | some _ =>
      match find s self key with
      | .error e => .error e
      | .ok (some f) =>
        let nid := s.next
        let s1 := updNode s self
          { s.nodes self with children := emplaceChild (s.nodes self).children key nid }
        let s2 := updNode s1 nid
          { tag := key, parent := some self, children := [], value := (s.nodes f).value }
        .ok ({ s2 with next := nid + 1 }, nid)
      | .ok none => .ok (emplace_new s self key)
    | none => .ok (emplace_new s self key)

/-- `scope::push_default<T>`: if an entry for the key exists at this node,
the C++ assigns a default-constructed `type_settings<T>` over it
(`*found = type_settings<T>{};`).  The implicitly-defined copy assignment
assigns every member of the `scope` base as well, so the entry's payload
becomes the default, its children map becomes empty, and its `parent`
pointer becomes null.  If no entry exists, a fresh one is created. -/
def push_default [Inhabited V] (s : State V) (self : Nat) (key : Nat) :
    Except Err (State V × Nat) :=
  match lookupKey (s.nodes self).children key with
  | some c =>
    if (s.nodes c).tag = key then
      .ok (updNode s c { tag := (s.nodes c).tag, parent := none, children := [], value := default }, c)
    else .error .typeMismatch
  | none => .ok (emplace_new s self key)

/-- `scope::_get<T>` (mutable): find on the chain; if absent, auto-insert
a default entry only when this node is the root (`is_root()`) and the
build-time policy `SVH_AUTO_INSERT` (here the `autoInsert` argument) is
enabled; otherwise throw `notFound`. -/
def get [Inhabited V] (s : State V) (self : Nat) (key : Nat) (autoInsert : Bool) :
    Except Err (State V × Nat) :=
  match find s self key with
  | .error e => .error e
  | .ok (some f) => .ok (s, f)
  | .ok none =>
    if (s.nodes self).parent.isNone && autoInsert then .ok (emplace_new s self key)
    else .error .notFound

/-- A freshly constructed root scope (`svh::scope root;`): no parent, no
children; it gets id `0`.  (Ids at or above `next` are unallocated junk;
the operations never look at them.) -/
def initState (V : Type) [Inhabited V] : State V :=
  { nodes := fun _ => { tag := 0, parent := none, children := [], value := default }, next := 1 }

/-- Concrete arenas for witnesses: nodes as an association list, absent
ids defaulting to a root-like junk node. -/
def lookupNode : List (Nat × Node V) → Nat → Option (Node V)
  | [], _ => none
  | p :: rest, n => if p.1 = n then some p.2 else lookupNode rest n

def stateOfList [Inhabited V] (l : List (Nat × Node V)) (nx : Nat) : State V :=
  { nodes := fun m =>
      (lookupNode l m).getD { tag := 0, parent := none, children := [], value := default },
    next := nx }

/-! ### Well-formedness of an arena -/

/-- The parent pointer (if any) goes strictly down in allocation order. -/
def nodeParentOk (nd : Node V) (n : Nat) : Bool :=
  Option.all (fun p => decide (p < n)) nd.parent

/-- Arena well-formedness: every allocated node's parent was allocated
before it, so every parent chain is finite. -/
def parentLt (s : State V) : Prop :=
  ((List.range s.next).all fun n => nodeParentOk (s.nodes n) n) = true

/-- One children-map entry is sane: the child was allocated after its
owner, is allocated, and its dynamic type matches its key. -/
def childOk (s : State V) (m : Nat) (pr : Nat × Nat) : Bool :=
  decide (m < pr.2) && decide (pr.2 < s.next) && decide ((s.nodes pr.2).tag = pr.1)

/-- All children maps of allocated nodes are sane. -/
def childrenOk (s : State V) : Prop :=
  ((List.range s.next).all fun m => (s.nodes m).children.all (childOk s m)) = true

/-- The ancestor chain of a node, nearest first. -/
def ancestorsFuel (s : State V) : Nat → Nat → List Nat
  | 0, _ => []
  | fuel + 1, n =>
    match (s.nodes n).parent with
    | none => []
    | some p => p :: ancestorsFuel s fuel p

def ancestors (s : State V) (n : Nat) : List Nat :=
  ancestorsFuel s (n + 1) n

/-- Reference description of `pop` as a walk along the ancestor chain. -/
def popSpec : List Nat → Int → Except Err Nat
  | [], count => if count = 1 then .error .noParent else .error .nullDeref
  | a :: rest, count => if count = 1 then .ok a else popSpec rest (count - 1)

/-! ### Basic lemmas -/

theorem parentLt_lt {s : State V} (hp : parentLt s) {n p : Nat}
    (hn : n < s.next) (h : (s.nodes n).parent = some p) : p < n := by
  have h1 : nodeParentOk (s.nodes n) n = true :=
    List.all_eq_true.1 hp n (List.mem_range.2 hn)
  rw [nodeParentOk, h] at h1
  simpa using h1

theorem childrenOk_spec {s : State V} (hc : childrenOk s) {m : Nat}
    (hm : m < s.next) {pr : Nat × Nat} (hmem : pr ∈ (s.nodes m).children) :
    m < pr.2 ∧ pr.2 < s.next ∧ (s.nodes pr.2).tag = pr.1 := by
  have h1 : (s.nodes m).children.all (childOk s m) = true :=
    List.all_eq_true.1 hc m (List.mem_range.2 hm)
  have h2 := List.all_eq_true.1 h1 pr hmem
  rw [childOk] at h2
  simpa [and_assoc] using h2

theorem lookupKey_mem : ∀ (l : List (Nat × Nat)) (key : Nat) (c : Nat),
    lookupKey l key = some c → (key, c) ∈ l := by
  intro l
  induction l with
  | nil => intro key c h; simp [lookupKey] at h
  | cons p rest ih =>
    intro key c h
    obtain ⟨k0, c0⟩ := p
    rw [lookupKey] at h
    by_cases hk : k0 = key
    · subst hk
      simp only [if_pos rfl] at h
      cases h
      exact List.mem_cons_self _ _
    · simp only [if_neg (by simpa using hk)] at h
      exact List.mem_cons_of_mem _ (ih key c h)

/-! ### The ancestor chain -/

theorem ancestorsFuel_stable {s : State V} (hp : parentLt s) :
    ∀ f1 f2 n, n < s.next → n < f1 → n < f2 →
      ancestorsFuel s f1 n = ancestorsFuel s f2 n := by
  intro f1
  induction f1 with
  | zero => intro f2 n _ h1 _; omega
  | succ f ih =>
    intro f2 n hn h1 h2
    cases f2 with
    | zero => omega
    | succ g =>
      cases hpar : (s.nodes n).parent with
      | none => simp [ancestorsFuel, hpar]
      | some p =>
        have hlt := parentLt_lt hp hn hpar
        simp only [ancestorsFuel, hpar]
        exact congrArg _ (ih g p (hlt.trans hn) (by omega) (by omega))

theorem ancestors_none {s : State V} {n : Nat}
    (h : (s.nodes n).parent = none) : ancestors s n = [] := by
  simp [ancestors, ancestorsFuel, h]

theorem ancestors_some {s : State V} (hp : parentLt s) {n p : Nat}
    (hn : n < s.next) (h : (s.nodes n).parent = some p) :
    ancestors s n = p :: ancestors s p := by
  have hlt := parentLt_lt hp hn h
  rw [ancestors, ancestors]
  simp only [ancestorsFuel, h]
  exact congrArg _ (ancestorsFuel_stable hp n (p + 1) p (hlt.trans hn) hlt (by omega))

/-! ### `pop` along the ancestor chain -/

theorem popFuel_eq_popSpec {s : State V} (hp : parentLt s) :
    ∀ fuel n, n < s.next → n < fuel → ∀ count : Int,
      popFuel s fuel n count = popSpec (ancestors s n) count := by
  intro fuel
  induction fuel with
  | zero => intro n _ h; omega
  | succ f ih =>
    intro n hn h count
    cases hpar : (s.nodes n).parent with
    | none =>
      rw [ancestors_none hpar]
      simp [popFuel, popSpec, hpar]
    | some p =>
      have hlt := parentLt_lt hp hn hpar
      rw [ancestors_some hp hn hpar]
      by_cases hc : count = 1
      · simp [popFuel, popSpec, hpar, hc]
      · simp only [popFuel, popSpec, hpar, if_neg hc]
        exact ih p (hlt.trans hn) (by omega) (count - 1)

theorem pop_eq_popSpec {s : State V} (hp : parentLt s) {n : Nat} (hn : n < s.next)
    (count : Int) : pop s n count = popSpec (ancestors s n) count :=
  popFuel_eq_popSpec hp (n + 1) n hn (by omega) count

theorem popSpec_in_range : ∀ (A : List Nat) (c : Nat), 1 ≤ c →
    ∀ x, A.get? (c - 1) = some x → popSpec A (c : Int) = .ok x := by
  intro A
  induction A with
  | nil => intro c _ x hx; simp at hx
  | cons a rest ih =>
    intro c hc x hx
    by_cases h1 : c = 1
    · subst h1
      simp at hx
      simp [popSpec, hx]
    · have h2 : c - 1 = (c - 2) + 1 := by omega
      rw [h2] at hx
      simp only [List.get?_cons_succ] at hx
      have h3 : ((c : Int)) ≠ 1 := by omega
      rw [popSpec, if_neg h3]
      have h4 : ((c : Int)) - 1 = ((c - 1 : Nat) : Int) := by omega
      rw [h4]
      refine ih (c - 1) (by omega) x ?_
      rw [show c - 1 - 1 = c - 2 by omega]
      exact hx

theorem popSpec_noParent_iff : ∀ (A : List Nat) (count : Int),
    popSpec A count = .error .noParent ↔ count = (A.length : Int) + 1 := by
  intro A
  induction A with
  | nil =>
    intro count
    by_cases h : count = 1 <;> simp [popSpec, h]
  | cons a rest ih =>
    intro count
    by_cases h : count = 1
    · subst h; simp [popSpec]; omega
    · rw [popSpec, if_neg h, ih]
      constructor <;> intro h2 <;> [skip; skip] <;> simp at h2 ⊢ <;> omega

theorem popSpec_nullDeref : ∀ (A : List Nat) (count : Int),
    count ≤ 0 ∨ (A.length : Int) + 2 ≤ count → popSpec A count = .error .nullDeref := by
  intro A
  induction A with
  | nil =>
    intro count h
    have : count ≠ 1 := by omega
    simp [popSpec, this]
  | cons a rest ih =>
    intro count h
    have h1 : count ≠ 1 := by rcases h with h | h <;> [omega; (simp at h; omega)]
    rw [popSpec, if_neg h1]
    refine ih (count - 1) ?_
    rcases h with h | h
    · exact Or.inl (by omega)
    · refine Or.inr ?_
      simp at h ⊢
      omega

/-! ### `find` along the ancestor chain -/

theorem findFuel_absent {s : State V} (hp : parentLt s) {key : Nat}
    (habs : ∀ m, m < s.next → lookupKey (s.nodes m).children key = none) :
    ∀ fuel n, n < s.next → n < fuel → findFuel s key fuel n = .ok none := by
  intro fuel
  induction fuel with
  | zero => intro n _ h; omega
  | succ f ih =>
    intro n hn h
    cases hpar : (s.nodes n).parent with
    | none => simp [findFuel, habs n hn, hpar]
    | some p =>
      have hlt := parentLt_lt hp hn hpar
      simp only [findFuel, habs n hn, hpar]
      exact ih p (hlt.trans hn) (by omega)

theorem find_absent {s : State V} (hp : parentLt s) {key n : Nat} (hn : n < s.next)
    (habs : ∀ m, m < s.next → lookupKey (s.nodes m).children key = none) :
    find s n key = .ok none :=
  findFuel_absent hp habs (n + 1) n hn (by omega)

theorem findFuel_mem {s : State V} (hp : parentLt s) {key : Nat} :
    ∀ fuel n f, n < s.next → findFuel s key fuel n = .ok (some f) →
      ∃ a, a < s.next ∧ lookupKey (s.nodes a).children key = some f := by
  intro fuel
  induction fuel with
  | zero => intro n f _ h; simp [findFuel] at h
  | succ fu ih =>
    intro n f hn h
    cases hl : lookupKey (s.nodes n).children key with
    | some c =>
      simp only [findFuel, hl] at h
      by_cases htag : (s.nodes c).tag = key
      · rw [if_pos htag] at h
        cases h
        exact ⟨n, hn, hl⟩
      · rw [if_neg htag] at h
        cases h
    | none =>
      cases hpar : (s.nodes n).parent with
      | none => simp [findFuel, hl, hpar] at h
      | some p =>
        simp only [findFuel, hl, hpar] at h
        exact ih p f ((parentLt_lt hp hn hpar).trans hn) h

/-- Whenever `find` returns an entry in a well-formed arena, that entry is
allocated and its dynamic type matches the key. -/
theorem find_bounds {s : State V} (hp : parentLt s) (hc : childrenOk s)
    {n f key : Nat} (hn : n < s.next) (hfind : find s n key = .ok (some f)) :
    f < s.next ∧ (s.nodes f).tag = key := by
  obtain ⟨a, ha, hl⟩ := findFuel_mem hp (n + 1) n f hn hfind
  have hmem := lookupKey_mem _ _ _ hl
  have h3 := childrenOk_spec hc ha hmem
  exact ⟨h3.2.1, h3.2.2⟩

/-! ### Concrete arenas for witnesses and counterexamples -/

/-- A root (id 0) holding one entry (id 1) for key 5, as after
`root.push<T>()`:  the entry's parent is the root. -/
def exOneEntry : State Nat :=
  stateOfList
    [(0, { tag := 0, parent := none, children := [(5, 1)], value := 0 }),
     (1, { tag := 5, parent := some 0, children := [], value := 0 })] 2

/-- A two-level chain: root 0, its entry 1 (key 5), and 1's entry 2
(key 7); node 2 is exactly two levels below the root. -/
def exChain2 : State Nat :=
  stateOfList
    [(0, { tag := 0, parent := none, children := [(5, 1)], value := 0 }),
     (1, { tag := 5, parent := some 0, children := [(7, 2)], value := 0 }),
     (2, { tag := 7, parent := some 1, children := [], value := 0 })] 3

/-- A root 0 holding an entry 1 for key 5 (payload value 42) and a
sibling scope 2 (key 9) that has no entry for key 5 of its own. -/
def exTwoEntries : State Nat :=
  stateOfList
    [(0, { tag := 0, parent := none, children := [(5, 1), (9, 2)], value := 0 }),
     (1, { tag := 5, parent := some 0, children := [], value := 42 }),
     (2, { tag := 9, parent := some 0, children := [], value := 7 })] 3

/-! ### The claims -/

/-- C1 (the code contradicts this claim): evaluation of the code at the
failing input.  In `exOneEntry` the root (node 0) already holds entry 1
for key 5, with `parent = some 0` (and `pop(1)` from it reaches the
root).  Calling `push_default` for key 5 on the root hits the existing
entry and executes `*found = type_settings<T>{};`, whose implicit copy
assignment overwrites the `scope` base: the same entry is returned but
its parent link is now null, and `pop(1)` from it afterwards throws
`noParent` — the parent link did not survive the operation, contrary to
the claimed invariant. -/
theorem C1_push_default_clears_parent :
    (exOneEntry.nodes 1).parent = some 0 ∧
    pop exOneEntry 1 1 = .ok 0 ∧
    ((push_default exOneEntry 0 5).map fun r => ((r.1.nodes 1).parent, r.2)) =
      .ok (none, 1) ∧
    ((push_default exOneEntry 0 5).bind fun r => pop r.1 1 1) = .error .noParent :=
  ⟨rfl, rfl, rfl, rfl⟩

/-- C2, counterexample to the claim as stated: `pop(2)` on the root has
`count` (2) exceeding the number of ancestors (0), so the claim says it
fails with `noParent`; instead the code reaches
`return parent->pop(--count)` with a null `parent` (modelled
`nullDeref`). -/
theorem C2_counterexample :
    ancestors (initState Nat) 0 = [] ∧
    pop (initState Nat) 0 2 = .error .nullDeref ∧
    pop (initState Nat) 0 2 ≠ .error .noParent := by
  refine ⟨rfl, rfl, ?_⟩
  rw [show pop (initState Nat) 0 2 = .error .nullDeref from rfl]
  simp

/-- C2 (amended): in a well-formed arena, for `count = c ≥ 1`: `pop`
returns the ancestor `c` levels up while `c` is at most the number of
ancestors; it fails with `noParent` exactly when `c` equals the number of
ancestors plus one (the recursion reaches the root with count 1); and for
larger `c` it calls `pop` through the root's null parent (`nullDeref`)
instead of failing with `noParent`. -/
theorem C2_pop_bounds {V : Type} (s : State V) (hp : parentLt s)
    (n : Nat) (hn : n < s.next) (c : Nat) (hc : 1 ≤ c) :
    (∀ x, (ancestors s n).get? (c - 1) = some x → pop s n (c : Int) = .ok x) ∧
    (c = (ancestors s n).length + 1 → pop s n (c : Int) = .error .noParent) ∧
    ((ancestors s n).length + 2 ≤ c → pop s n (c : Int) = .error .nullDeref) := by
  refine ⟨?_, ?_, ?_⟩
  · intro x hx
    rw [pop_eq_popSpec hp hn]
    exact popSpec_in_range _ c hc x hx
  · intro h
    rw [pop_eq_popSpec hp hn, popSpec_noParent_iff]
    omega
  · intro h
    rw [pop_eq_popSpec hp hn]
    exact popSpec_nullDeref _ _ (Or.inr (by omega))

/-- C2 witness: in the two-level chain, `pop(1)` on the root fails with
`noParent`; from node 2 (two levels below the root) `pop(2)` returns the
root, `pop(3)` fails with `noParent`, and `pop(4)` hits the null parent. -/
theorem C2_pop_bounds_witness :
    pop exChain2 0 1 = .error .noParent ∧
    pop exChain2 2 2 = .ok 0 ∧
    pop exChain2 2 3 = .error .noParent ∧
    pop exChain2 2 4 = .error .nullDeref :=
  ⟨(C2_pop_bounds exChain2 rfl 0 (by decide) 1 (by decide)).2.1 (by decide),
   (C2_pop_bounds exChain2 rfl 2 (by decide) 2 (by decide)).1 0 (by decide),
   (C2_pop_bounds exChain2 rfl 2 (by decide) 3 (by decide)).2.1 (by decide),
   (C2_pop_bounds exChain2 rfl 2 (by decide) 4 (by decide)).2.2 (by decide)⟩

/-- C10: out-of-range `pop` counts other than (number of ancestors + 1)
never produce `noParent` and never return a node: `pop(0)` ends in the
null-parent call (it is neither the identity nor a `noParent` failure),
any count at least two past the ancestor count does the same, and a
`noParent` failure happens only when the count is exactly the number of
ancestors plus one (the recursion reaching the root with count 1). -/
theorem C10_pop_out_of_range {V : Type} (s : State V) (hp : parentLt s)
    (n : Nat) (hn : n < s.next) :
    pop s n 0 = .error .nullDeref ∧
    (∀ c : Nat, (ancestors s n).length + 2 ≤ c → pop s n (c : Int) = .error .nullDeref) ∧
    (∀ count : Int, pop s n count = .error .noParent →
      count = (ancestors s n).length + 1) := by
  refine ⟨?_, ?_, ?_⟩
  · rw [pop_eq_popSpec hp hn]
    exact popSpec_nullDeref _ _ (Or.inl (by omega))
  · intro c h
    rw [pop_eq_popSpec hp hn]
    exact popSpec_nullDeref _ _ (Or.inr (by omega))
  · intro count h
    rw [pop_eq_popSpec hp hn, popSpec_noParent_iff] at h
    exact h

/-- C10 witness: `pop(0)` from node 2 and `pop(2)` from the root both end
in the null-parent call. -/
theorem C10_pop_out_of_range_witness :
    pop exChain2 2 0 = .error .nullDeref ∧
    pop exChain2 0 2 = .error .nullDeref :=
  ⟨(C10_pop_out_of_range exChain2 rfl 2 (by decide)).1,
   (C10_pop_out_of_range exChain2 rfl 0 (by decide)).2.1 2 (by decide)⟩

/-- C3, counterexample to the claim as stated: node 1 of `exOneEntry` is
not the root, key 7 is found nowhere on its chain, and the auto-insert
policy is enabled — the claim says resolution succeeds (a default entry
created at the root and returned), but `_get` checks `is_root()` on the
starting node and throws `notFound`. -/
theorem C3_counterexample :
    find exOneEntry 1 7 = .ok none ∧
    get exOneEntry 1 7 true = .error .notFound :=
  ⟨rfl, rfl⟩

/-- C3 (amended): when the chain search finds nothing, mutable `get`
succeeds if and only if the starting node is the root and the auto-insert
policy is enabled, in which case the default entry is created at that
root and returned; from a non-root starting node it fails with `notFound`
whatever the policy is. -/
theorem C3_get_miss {V : Type} [Inhabited V] (s : State V) (self key : Nat)
    (habsent : find s self key = .ok none) :
    ((s.nodes self).parent = none →
      get s self key true = .ok (emplace_new s self key) ∧
      get s self key false = .error .notFound) ∧
    (∀ p, (s.nodes self).parent = some p → ∀ b, get s self key b = .error .notFound) := by
  constructor
  · intro hroot
    constructor <;> simp [get, habsent, hroot]
  · intro p hp b
    simp [get, habsent, hp]

/-- C3 witness: on a fresh root the enabled policy inserts and the
disabled one fails; on the non-root node of `exOneEntry` even the enabled
policy fails. -/
theorem C3_get_miss_witness :
    (get (initState Nat) 0 5 true = .ok (emplace_new (initState Nat) 0 5) ∧
     get (initState Nat) 0 5 false = .error .notFound) ∧
    get exOneEntry 1 7 false = .error .notFound :=
  ⟨(C3_get_miss (initState Nat) 0 5 rfl).1 rfl,
   (C3_get_miss exOneEntry 1 7 rfl).2 0 rfl false⟩

/-- C4, counterexample to the claim as stated: in `exOneEntry`, node 1 is
the root's entry for key 5 and lacks an own entry for key 5, and its
nearest (only) ancestor — the root — holds an entry for key 5, namely
node 1 itself.  `push` for key 5 on node 1 copies node 1 into a new
entry 2 emplaced into node 1's children, so the ancestor-held entry
(node 1) has its nested type-entry map changed from `[]` to `[(5, 2)]`
by the push, contrary to the claim's unchanged-ancestor-entry part. -/
theorem C4_counterexample :
    lookupKey (exOneEntry.nodes 1).children 5 = none ∧
    find exOneEntry 1 5 = .ok (some 1) ∧
    (exOneEntry.nodes 1).children = [] ∧
    ((push exOneEntry 1 5).map fun r => ((r.1.nodes 1).children, r.2)) =
      .ok ([(5, 2)], 2) :=
  ⟨rfl, rfl, rfl, rfl⟩

/-- C4 (amended): when the child lacks an entry for the key, has a
parent, and the chain search finds a donor entry `f` that is a node
distinct from the child, `push` creates the new entry at the child with
the donor's payload value and an empty children map; the only nodes the
push touches are the child (whose map gains the new entry) and the fresh
node, so the donor `f` — and every other node — is unchanged, and
mutating the new entry's payload afterwards leaves `f` unchanged too. -/
theorem C4_push_inherits {V : Type} [Inhabited V] (s : State V)
    (hp : parentLt s) (hco : childrenOk s) (self : Nat) (hn : self < s.next)
    (key : Nat) (hlook : lookupKey (s.nodes self).children key = none)
    (q : Nat) (hq : (s.nodes self).parent = some q)
    (f : Nat) (hfind : find s self key = .ok (some f)) (hfself : f ≠ self) :
    ∃ s2, push s self key = .ok (s2, s.next) ∧
      (s2.nodes s.next).value = (s.nodes f).value ∧
      (s2.nodes s.next).children = [] ∧
      (s2.nodes s.next).parent = some self ∧
      lookupKey (s2.nodes self).children key = some s.next ∧
      s2.nodes f = s.nodes f ∧
      (∀ m, m ≠ self → m ≠ s.next → s2.nodes m = s.nodes m) ∧
      (∀ v : V, (setValue s2 s.next v).nodes f = s.nodes f) := by
  have hfn : f < s.next := (find_bounds hp hco hn hfind).1
  have hne1 : self ≠ s.next := Nat.ne_of_lt hn
  have hne2 : f ≠ s.next := Nat.ne_of_lt hfn
  refine ⟨{ updNode
      (updNode s self
        { s.nodes self with children := emplaceChild (s.nodes self).children key s.next })
      s.next
      { tag := key, parent := some self, children := [], value := (s.nodes f).value }
      with next := s.next + 1 }, ?_, ?_, ?_, ?_, ?_, ?_, ?_, ?_⟩
  · simp only [push, hlook, hq, hfind]
  · simp [updNode]
  · simp [updNode]
  · simp [updNode]
  · simp [updNode, hne1, emplaceChild, hlook, lookupKey]
  · simp [updNode, hne2, hfself]
  · intro m h1 h2
    simp [updNode, h1, h2]
  · intro v
    simp [setValue, updNode, hne2, hfself]

/-- C4 witness: in `exTwoEntries`, pushing key 5 on node 2 (which lacks
it) inherits the root entry 1's value 42 into a fresh entry 3 with an
empty map, leaving node 1 (and everything but node 2 and the new node)
unchanged, also after mutating the new entry's payload. -/
theorem C4_push_inherits_witness :
    ∃ s2, push exTwoEntries 2 5 = .ok (s2, 3) ∧
      (s2.nodes 3).value = 42 ∧
      (s2.nodes 3).children = [] ∧
      (s2.nodes 3).parent = some 2 ∧
      lookupKey (s2.nodes 2).children 5 = some 3 ∧
      s2.nodes 1 = exTwoEntries.nodes 1 ∧
      (∀ m, m ≠ 2 → m ≠ 3 → s2.nodes m = exTwoEntries.nodes m) ∧
      (∀ v : Nat, (setValue s2 3 v).nodes 1 = exTwoEntries.nodes 1) :=
  C4_push_inherits exTwoEntries rfl rfl 2 (by decide) 5 rfl 0 rfl 1 rfl (by decide)

/-- C5: `push_default` never consults ancestors.  If an entry for the key
exists at the node (with matching dynamic type), that same entry is
returned with its payload replaced by a fresh default and its nested
type-entry map cleared, and no other node of the arena — in particular no
ancestor's entry for the key — is touched.  If no entry exists at the
node, a fresh default entry is created at the node (`emplace_new`),
regardless of what any ancestor holds: the definition imposes no
condition on ancestors in either branch. -/
theorem C5_push_default_resets {V : Type} [Inhabited V] (s : State V) (self key : Nat) :
    (∀ c, lookupKey (s.nodes self).children key = some c → (s.nodes c).tag = key →
      ∃ s2, push_default s self key = .ok (s2, c) ∧
        (s2.nodes c).value = (default : V) ∧
        (s2.nodes c).children = [] ∧
        (∀ m, m ≠ c → s2.nodes m = s.nodes m)) ∧
    (lookupKey (s.nodes self).children key = none →
      push_default s self key = .ok (emplace_new s self key) ∧
      (emplace_new s self key).2 = s.next ∧
      ((emplace_new s self key).1.nodes s.next).value = (default : V) ∧
      ((emplace_new s self key).1.nodes s.next).children = [] ∧
      ((emplace_new s self key).1.nodes s.next).parent = some self ∧
      (∀ m, m ≠ self → m ≠ s.next → (emplace_new s self key).1.nodes m = s.nodes m)) := by
  constructor
  · intro c hc ht
    refine ⟨updNode s c { tag := (s.nodes c).tag, parent := none, children := [], value := default },
      by simp [push_default, hc, ht], ?_, ?_, ?_⟩
    · simp [updNode]
    · simp [updNode]
    · intro m hm
      simp [updNode, hm]
  · intro hnone
    refine ⟨by simp [push_default, hnone], rfl, ?_, ?_, ?_, ?_⟩
    · simp [emplace_new, updNode]
    · simp [emplace_new, updNode]
    · simp [emplace_new, updNode]
    · intro m h1 h2
      simp [emplace_new, updNode, h1, h2]

/-- C5 witness: resetting the existing entry 1 of `exOneEntry` from the
root, and creating a fresh default entry for the absent key 7 at node 1. -/
theorem C5_push_default_resets_witness :
    (∃ s2, push_default exOneEntry 0 5 = .ok (s2, 1) ∧
      (s2.nodes 1).value = 0 ∧
      (s2.nodes 1).children = [] ∧
      (∀ m, m ≠ 1 → s2.nodes m = exOneEntry.nodes m)) ∧
    (push_default exOneEntry 1 7 = .ok (emplace_new exOneEntry 1 7) ∧
      (emplace_new exOneEntry 1 7).2 = 2 ∧
      ((emplace_new exOneEntry 1 7).1.nodes 2).value = 0 ∧
      ((emplace_new exOneEntry 1 7).1.nodes 2).children = [] ∧
      ((emplace_new exOneEntry 1 7).1.nodes 2).parent = some 1 ∧
      (∀ m, m ≠ 1 → m ≠ 2 → (emplace_new exOneEntry 1 7).1.nodes m = exOneEntry.nodes m)) :=
  ⟨(C5_push_default_resets exOneEntry 0 5).1 1 rfl rfl,
   (C5_push_default_resets exOneEntry 1 7).2 rfl⟩

/-- C6: on a freshly constructed root that was never touched, mutable
`get` with the auto-insert policy enabled succeeds with a default-valued
entry stored at the root, and with the policy disabled it fails with
`notFound` (and, `find`/`get` being const up to the returned state, the
root still has no entry: the error carries no new state). -/
theorem C6_auto_insert_policy (V : Type) [Inhabited V] (key : Nat) :
    get (initState V) 0 key true = .ok (emplace_new (initState V) 0 key) ∧
    (emplace_new (initState V) 0 key).2 = 1 ∧
    ((emplace_new (initState V) 0 key).1.nodes 1).value = (default : V) ∧
    ((emplace_new (initState V) 0 key).1.nodes 1).parent = some 0 ∧
    lookupKey ((emplace_new (initState V) 0 key).1.nodes 0).children key = some 1 ∧
    get (initState V) 0 key false = .error .notFound := by
  refine ⟨rfl, rfl, ?_, ?_, ?_, rfl⟩
  · simp [emplace_new, updNode, initState]
  · simp [emplace_new, updNode, initState]
  · simp [emplace_new, updNode, initState, emplaceChild, lookupKey]

/-- C7: if a key was never pushed anywhere in the arena (no node's
children map mentions it), `find` returns the absent result — and, being
a const method, it returns no state at all, so the tree is unchanged —
and a subsequent mutable `get` with the policy disabled still fails with
`notFound`. -/
theorem C7_find_never_inserts {V : Type} [Inhabited V] (s : State V) (hp : parentLt s)
    (n : Nat) (hn : n < s.next) (key : Nat)
    (habs : ∀ m, m < s.next → lookupKey (s.nodes m).children key = none) :
    find s n key = .ok none ∧ get s n key false = .error .notFound := by
  have hfind := find_absent hp hn habs
  refine ⟨hfind, ?_⟩
  simp [get, hfind]

/-- C7 witness: key 11 occurs in no children map of `exChain2`. -/
theorem C7_find_never_inserts_witness :
    find exChain2 2 11 = .ok none ∧ get exChain2 2 11 false = .error .notFound :=
  C7_find_never_inserts exChain2 rfl 2 (by decide) 11 (by decide)

/-- C8: `push` on a node that already holds an entry for the key (of the
matching dynamic type) returns that same entry and leaves the arena
untouched, so a second `push` returns the same entry again: no duplicate
is created and neither payload nor nested entries are reset. -/
theorem C8_push_reuses {V : Type} [Inhabited V] (s : State V) (self key c : Nat)
    (hc : lookupKey (s.nodes self).children key = some c)
    (ht : (s.nodes c).tag = key) :
    push s self key = .ok (s, c) ∧
    ((push s self key).bind fun r => push r.1 self key) = .ok (s, c) := by
  have h1 : push s self key = .ok (s, c) := by simp [push, hc, ht]
  refine ⟨h1, ?_⟩
  rw [h1]
  simpa [Except.bind] using h1

/-- C8 witness: two pushes of key 5 on the root of `exOneEntry` both
return entry 1 with the arena unchanged. -/
theorem C8_push_reuses_witness :
    push exOneEntry 0 5 = .ok (exOneEntry, 1) ∧
    ((push exOneEntry 0 5).bind fun r => push r.1 0 5) = .ok (exOneEntry, 1) :=
  C8_push_reuses exOneEntry 0 5 1 rfl rfl

/-- C9: the type key is a stable, injective function of the registered
payload type: two distinct payload types get distinct keys, and equal
types get equal keys (the function is deterministic, so any two
invocations for the same type agree). -/
theorem C9_type_key_injective : ∀ i j : Nat,
    get_type_key (.payload i) = get_type_key (.payload j) ↔ i = j := by
  intro i j
  have h : ∀ k : Nat, get_type_key (.payload k) = 4 * k := fun _ => rfl
  rw [h, h]
  omega

end svh
